import Mathlib

/-!
Verification of the USL (Universal Scalability Law) modeling library.

The embedding follows the current library code: the `Model` equations and the
`Build` orchestrator (model.go of the `usl` package) and the Little's-Law
measurement constructors (measurement.go).  Exact `float64` arithmetic is
modeled by the rationals `ℚ`; for the claims that are specifically about
IEEE special values produced by division by zero (`MaxConcurrency` on a
limitless model, and the unguarded divisions in the measurement
constructors), the same source functions are additionally embedded over an
extended value type `FV` carrying `+Inf`, `-Inf` and `NaN`, with real-valued
finite part so that `math.Sqrt` and `math.Floor` can be interpreted.
-/

namespace USL

/-- Measurement is a simultaneous measurement of at least two of the
parameters of Little's Law: concurrency, throughput, and latency
(measurement.go). -/
structure Measurement where
  Concurrency : ℚ
  Throughput : ℚ
  Latency : ℚ
deriving DecidableEq, Repr

/-- ConcurrencyAndLatency returns a measurement of a system's latency at a
given level of concurrency; the throughput is derived via Little's Law
(measurement.go): `Measurement{Concurrency: n, Throughput: n / r, Latency: r}`. -/
def ConcurrencyAndLatency (n r : ℚ) : Measurement :=
  ⟨n, n / r, r⟩

/-- ConcurrencyAndThroughput returns a measurement of a system's throughput at
a given level of concurrency; the latency is derived via Little's Law
(measurement.go): `Measurement{Concurrency: n, Throughput: x, Latency: n / x}`. -/
def ConcurrencyAndThroughput (n x : ℚ) : Measurement :=
  ⟨n, x, n / x⟩

/-- ThroughputAndLatency returns a measurement of a system's latency at a given
level of throughput; the concurrency is derived via Little's Law
(measurement.go): `Measurement{Concurrency: x * r, Throughput: x, Latency: r}`. -/
def ThroughputAndLatency (x r : ℚ) : Measurement :=
  ⟨x * r, x, r⟩

/-- Model is a Universal Scalability Law model: coefficient of contention σ,
coefficient of crosstalk/coherency κ, coefficient of performance λ
(model.go). -/
structure Model where
  Sigma : ℚ
  Kappa : ℚ
  Lambda : ℚ
deriving DecidableEq, Repr

/-- ThroughputAtConcurrency returns the expected throughput given a number of
concurrent events, X(N) (model.go):
`(m.Lambda * n) / (1 + (m.Sigma * (n - 1)) + (m.Kappa * n * (n - 1)))`. -/
def Model.ThroughputAtConcurrency (m : Model) (n : ℚ) : ℚ :=
  (m.Lambda * n) / (1 + (m.Sigma * (n - 1)) + (m.Kappa * n * (n - 1)))

/-- LatencyAtConcurrency returns the expected mean latency given a number of
concurrent events, R(N) (model.go). -/
def Model.LatencyAtConcurrency (m : Model) (n : ℚ) : ℚ :=
  (1 + (m.Sigma * (n - 1)) + (m.Kappa * n * (n - 1))) / m.Lambda

/-- ContentionConstrained returns true if the system is constrained by
contention (model.go): `m.Sigma > m.Kappa`. -/
def Model.ContentionConstrained (m : Model) : Bool :=
  m.Sigma > m.Kappa

/-- CoherencyConstrained returns true if the system is constrained by coherency
costs (model.go): `m.Sigma < m.Kappa`. -/
def Model.CoherencyConstrained (m : Model) : Bool :=
  m.Sigma < m.Kappa

/-- Limitless returns true if the system is linearly scalable (model.go):
`m.Kappa == 0`. -/
def Model.Limitless (m : Model) : Bool :=
  m.Kappa == 0

/-- A `float64` value as classified by IEEE 754: a finite value (modeled by a
real number), one of the two infinities, or NaN.  Signed zero is identified
with zero, which is irrelevant to the claims verified here (all divisors are
literal `0` or positive). -/
inductive FV where
  | finite (x : ℝ)
  | inf
  | ninf
  | nan

/-- Whether a `float64` value is finite (neither an infinity nor NaN). -/
def FV.isFinite : FV → Bool
  | .finite _ => true
  | _ => false

/-- Go division of two finite `float64` operands under IEEE 754: a nonzero
divisor yields the finite quotient; a zero divisor yields `±Inf` according to
the sign of the dividend, or `NaN` when the dividend is also zero. -/
def fdiv (a b : ℚ) : FV :=
  if b = 0 then
    if 0 < a then .inf else if a < 0 then .ninf else .nan
  else
    .finite ((a / b : ℚ) : ℝ)

/-- Go `math.Sqrt` under IEEE 754: `Sqrt(+Inf) = +Inf`, `Sqrt(x) = NaN` for
`x < 0` (hence also for `-Inf`), `Sqrt(NaN) = NaN`. -/
noncomputable def fsqrt : FV → FV
  | .finite x => if x < 0 then .nan else .finite (Real.sqrt x)
  | .inf => .inf
  | .ninf => .nan
  | .nan => .nan

/-- Go `math.Floor` under IEEE 754: `Floor(±Inf) = ±Inf`, `Floor(NaN) = NaN`. -/
noncomputable def ffloor : FV → FV
  | .finite x => .finite ((⌊x⌋ : ℤ) : ℝ)
  | .inf => .inf
  | .ninf => .ninf
  | .nan => .nan

/-- MaxConcurrency returns the maximum expected number of concurrent events the
system can handle, Nmax (model.go):
`math.Floor(math.Sqrt((1 - m.Sigma) / m.Kappa))`, embedded with IEEE 754
special values so that the κ = 0 behavior is visible. -/
noncomputable def Model.MaxConcurrency (m : Model) : FV :=
  ffloor (fsqrt (fdiv (1 - m.Sigma) m.Kappa))

/-- A measurement whose fields record IEEE 754 classification, used to state
what the unguarded divisions of the measurement constructors produce on zero
divisors. -/
structure MeasurementF where
  Concurrency : FV
  Throughput : FV
  Latency : FV

/-- ConcurrencyAndLatency (measurement.go) embedded with IEEE 754 division:
the derived throughput is `n / r` with no guard on `r`. -/
def ConcurrencyAndLatencyF (n r : ℚ) : MeasurementF :=
  ⟨.finite n, fdiv n r, .finite r⟩

/-- ConcurrencyAndThroughput (measurement.go) embedded with IEEE 754 division:
the derived latency is `n / x` with no guard on `x`. -/
def ConcurrencyAndThroughputF (n x : ℚ) : MeasurementF :=
  ⟨.finite n, .finite x, fdiv n x⟩

/-- An error reported by the external Levenberg–Marquardt solver
(`github.com/maorshutman/lm`), kept abstract as its message. -/
abbrev SolverError := String

/-- The errors `Build` can return (model.go): `ErrInsufficientMeasurements`
("usl: need at least 6 measurements"), or the wrapping of a solver error
(`fmt.Errorf("unable to build model: %w", err)`). -/
inductive BuildError where
  | insufficientMeasurements
  | fitDidNotConverge (cause : SolverError)
deriving DecidableEq, Repr

/-- The problem record handed to the external LM solver, with the fields the
source populates (model.go): dimension, residual count, residual function,
initial parameters, and the damping/convergence constants.  The source also
sets `Jac` to `lm.NumJac{Func: f}.Jac`, the library's finite-difference
approximation built from the same residual function; it carries no
information beyond `Func` and belongs to the external library, so it is not
repeated here. -/
structure LMProblem where
  Dim : ℕ
  Size : ℕ
  Func : List ℚ → List ℚ
  InitParams : List ℚ
  Tau : ℚ
  Eps1 : ℚ
  Eps2 : ℚ

/-- The result record returned by the external LM solver on success; the
source reads `results.X[0]`, `results.X[1]`, `results.X[2]`. -/
structure LMResults where
  X : List ℚ

/-- minMeasurements is the smallest number of measurements from which a useful
model can be created (model.go). -/
def minMeasurements : ℕ := 6

/-- The residual function `f` of `Build` (model.go): for candidate parameters
`x`, build the trial model `{Sigma: x[0], Kappa: x[1], Lambda: x[2]}` and take
`v.Throughput - model.ThroughputAtConcurrency(v.Concurrency)` per
measurement. -/
def residuals (measurements : List Measurement) (x : List ℚ) : List ℚ :=
  let model : Model := ⟨x.getD 0 0, x.getD 1 0, x.getD 2 0⟩
  measurements.map fun v => v.Throughput - model.ThroughputAtConcurrency v.Concurrency

/-- The initial-guess loop of `Build` (model.go): starting from
`init[2] = 0`, replace the accumulator by `m.Throughput / m.Concurrency`
whenever that ratio exceeds it. -/
def initLambda : List Measurement → ℚ → ℚ
  | [], acc => acc
  | mt :: rest, acc =>
    let v := mt.Throughput / mt.Concurrency
    initLambda rest (if v > acc then v else acc)

/-- The same initial-guess loop with the measurement array threaded as
explicit state: each iteration reads one element and writes none, so the loop
returns the accumulator together with the array it traversed. -/
def initLoop : List Measurement → ℚ → ℚ × List Measurement
  | [], acc => (acc, [])
  | mt :: rest, acc =>
    let v := mt.Throughput / mt.Concurrency
    let step := initLoop rest (if v > acc then v else acc)
    (step.1, mt :: step.2)

/-- The `lm.LMProblem` literal of `Build` (model.go): `Dim: 3`,
`Size: len(measurements)`, `Func: f`, `InitParams: init` (that is,
`[0.1, 0.01, lam]` with `lam` the initial-guess loop's result), `Tau: 1e-6`,
`Eps1: 1e-8`, `Eps2: 1e-8`. -/
def buildProblem (measurements : List Measurement) (lam : ℚ) : LMProblem :=
  ⟨3, measurements.length, residuals measurements,
    [1/10, 1/100, lam], 1/1000000, 1/100000000, 1/100000000⟩

/-- Build returns a model whose parameters are generated from the given
measurements (model.go).  The external solver `lm.LM` is a parameter: `Build`
rejects collections with fewer than `minMeasurements` elements, otherwise
computes the initial guess, hands the problem to the solver, and either wraps
the solver's error or wraps the converged parameter vector as a `Model`. -/
def Build (solve : LMProblem → Except SolverError LMResults)
    (measurements : List Measurement) : Except BuildError Model :=
  if measurements.length < minMeasurements then
    .error .insufficientMeasurements
  else
    let lam := initLambda measurements 0
    match solve (buildProblem measurements lam) with
    | .error e => .error (.fitDidNotConverge e)
    | .ok results =>
      .ok ⟨results.X.getD 0 0, results.X.getD 1 0, results.X.getD 2 0⟩

/-- Build with the caller's measurement array threaded as explicit state: the
returned list is the measurement array as it stands after every statement of
the source body has run.  The body's only array writes are to the local
`init` vector and to the solver-owned residual buffer `dst`; the measurement
array itself is only ever read (by the initial-guess loop and by the residual
closure), which the threading makes explicit. -/
def BuildH (solve : LMProblem → Except SolverError LMResults)
    (measurements : List Measurement) :
    Except BuildError Model × List Measurement :=
  if measurements.length < minMeasurements then
    (.error .insufficientMeasurements, measurements)
  else
    let step := initLoop measurements 0
    match solve (buildProblem step.2 step.1) with
    | .error e => (.error (.fitDidNotConverge e), step.2)
    | .ok results =>
      (.ok ⟨results.X.getD 0 0, results.X.getD 1 0, results.X.getD 2 0⟩, step.2)

/-! ### Helper lemmas -/

theorem initLoop_fst (ms : List Measurement) : ∀ acc : ℚ,
    (initLoop ms acc).1 = initLambda ms acc := by
  induction ms with
  | nil => intro acc; rfl
  | cons mt rest ih => intro acc; simp only [initLoop, initLambda]; exact ih _

theorem initLoop_snd (ms : List Measurement) : ∀ acc : ℚ,
    (initLoop ms acc).2 = ms := by
  induction ms with
  | nil => intro acc; rfl
  | cons mt rest ih => intro acc; simp only [initLoop]; rw [ih _]

theorem initLambda_le (ms : List Measurement) : ∀ acc : ℚ,
    acc ≤ initLambda ms acc := by
  induction ms with
  | nil => intro acc; exact le_refl _
  | cons mt rest ih =>
    intro acc
    simp only [initLambda]
    refine le_trans ?_ (ih _)
    split
    · exact le_of_lt ‹_›
    · exact le_refl _

theorem initLambda_ge (ms : List Measurement) : ∀ acc : ℚ, ∀ mt ∈ ms,
    mt.Throughput / mt.Concurrency ≤ initLambda ms acc := by
  induction ms with
  | nil => intro acc mt h; exact absurd h (List.not_mem_nil mt)
  | cons m0 rest ih =>
    intro acc mt hmem
    simp only [initLambda]
    rcases List.mem_cons.mp hmem with h | h
    · subst h
      refine le_trans ?_ (initLambda_le rest _)
      split
      · exact le_refl _
      · exact le_of_not_lt ‹_›
    · exact ih _ mt h

theorem initLambda_cases (ms : List Measurement) : ∀ acc : ℚ,
    initLambda ms acc = acc
      ∨ ∃ mt ∈ ms, initLambda ms acc = mt.Throughput / mt.Concurrency := by
  induction ms with
  | nil => intro acc; exact Or.inl rfl
  | cons m0 rest ih =>
    intro acc
    simp only [initLambda]
    rcases ih (if m0.Throughput / m0.Concurrency > acc then
        m0.Throughput / m0.Concurrency else acc) with h | ⟨mt, hm, he⟩
    · rw [h]
      split
      · exact Or.inr ⟨m0, List.mem_cons_self m0 rest, rfl⟩
      · exact Or.inl rfl
    · exact Or.inr ⟨mt, List.mem_cons_of_mem m0 hm, he⟩

/-! ### Claims -/

/-- C1: for every model (σ, κ, λ) and every concurrency value N,
`ThroughputAtConcurrency(N)` returns exactly λ·N / (1 + σ·(N−1) + κ·N·(N−1)),
for all N without re-validation or clamping (the formula is applied
unconditionally, including where the denominator vanishes). -/
theorem c1_throughput_at_concurrency (m : Model) (n : ℚ) :
    m.ThroughputAtConcurrency n
      = m.Lambda * n / (1 + m.Sigma * (n - 1) + m.Kappa * n * (n - 1)) := rfl

/-- C4: each Little's-Law constructor stores its two given quantities
unchanged and derives exactly the missing third one:
`ConcurrencyAndLatency(N, R)` has throughput N/R,
`ConcurrencyAndThroughput(N, X)` has latency N/X, and
`ThroughputAndLatency(X, R)` has concurrency X·R. -/
theorem c4_littles_law_constructors (n r x : ℚ) :
    (ConcurrencyAndLatency n r).Concurrency = n
      ∧ (ConcurrencyAndLatency n r).Throughput = n / r
      ∧ (ConcurrencyAndLatency n r).Latency = r
      ∧ (ConcurrencyAndThroughput n x).Concurrency = n
      ∧ (ConcurrencyAndThroughput n x).Throughput = x
      ∧ (ConcurrencyAndThroughput n x).Latency = n / x
      ∧ (ThroughputAndLatency x r).Concurrency = x * r
      ∧ (ThroughputAndLatency x r).Throughput = x
      ∧ (ThroughputAndLatency x r).Latency = r :=
  ⟨rfl, rfl, rfl, rfl, rfl, rfl, rfl, rfl, rfl⟩

/-- C6: for every model, `ContentionConstrained()` (σ > κ) and
`CoherencyConstrained()` (σ < κ) are never both true, and both are false if
and only if σ = κ. -/
theorem c6_classification_exclusivity (m : Model) :
    (¬ (m.ContentionConstrained = true ∧ m.CoherencyConstrained = true))
      ∧ ((m.ContentionConstrained = false ∧ m.CoherencyConstrained = false)
          ↔ m.Sigma = m.Kappa) := by
  simp only [Model.ContentionConstrained, Model.CoherencyConstrained,
    decide_eq_true_eq, decide_eq_false_iff_not, gt_iff_lt, not_lt]
  constructor
  · rintro ⟨h1, h2⟩
    exact absurd (h1.trans h2) (lt_irrefl _)
  · constructor
    · rintro ⟨h1, h2⟩
      exact le_antisymm h1 h2
    · intro h
      exact ⟨le_of_eq h, ge_of_eq h⟩

/-- C2: `Build` with fewer than 6 measurements always fails with
`ErrInsufficientMeasurements`, returns no model, and performs no computation:
the result is the same whatever solver is supplied (in particular the solver
is never invoked). -/
theorem c2_minimum_data_guard (solve : LMProblem → Except SolverError LMResults)
    (measurements : List Measurement) (h : measurements.length < 6) :
    Build solve measurements = .error .insufficientMeasurements
      ∧ ∀ solve2, Build solve2 measurements = Build solve measurements := by
  have hb : ∀ s, Build s measurements = .error .insufficientMeasurements := by
    intro s
    unfold Build
    rw [if_pos (show measurements.length < minMeasurements from h)]
  exact ⟨hb solve, fun s2 => (hb s2).trans (hb solve).symm⟩

/-- Witness for C2 at the empty collection and a concrete solver. -/
theorem c2_minimum_data_guard_witness :
    (([] : List Measurement).length < 6)
      ∧ (Build (fun _ => Except.ok ⟨[0, 0, 0]⟩) [] = .error .insufficientMeasurements
          ∧ ∀ solve2, Build solve2 ([] : List Measurement)
              = Build (fun _ => Except.ok ⟨[0, 0, 0]⟩) []) :=
  ⟨by decide, c2_minimum_data_guard (fun _ => Except.ok ⟨[0, 0, 0]⟩) [] (by decide)⟩

/-- C5 counterexample: the Little's-Law invariant does not hold for every
measurement: a measurement whose three fields are supplied directly is not
constrained (`Measurement{1, 2, 3}` has Concurrency = 1 ≠ 6 =
Throughput · Latency), and the two constructors that divide break the
identity on a zero divisor (`ConcurrencyAndLatency(1, 0)` and
`ConcurrencyAndThroughput(1, 0)` each have Concurrency = 1 while
Throughput · Latency is not 1). -/
theorem c5_direct_fields_counterexample :
    (¬ ((Measurement.mk 1 2 3).Concurrency
        = (Measurement.mk 1 2 3).Throughput * (Measurement.mk 1 2 3).Latency))
      ∧ (¬ ((ConcurrencyAndLatency 1 0).Concurrency
          = (ConcurrencyAndLatency 1 0).Throughput * (ConcurrencyAndLatency 1 0).Latency))
      ∧ (¬ ((ConcurrencyAndThroughput 1 0).Concurrency
          = (ConcurrencyAndThroughput 1 0).Throughput
              * (ConcurrencyAndThroughput 1 0).Latency)) := by
  refine ⟨?_, ?_, ?_⟩
  · show ¬ ((1 : ℚ) = 2 * 3)
    norm_num
  · show ¬ ((1 : ℚ) = 1 / 0 * 0)
    norm_num
  · show ¬ ((1 : ℚ) = 0 * (1 / 0))
    norm_num

/-- C5 (amended): `ThroughputAndLatency` yields a measurement satisfying the
Little's-Law invariant N = X·R unconditionally; `ConcurrencyAndLatency` and
`ConcurrencyAndThroughput` do so whenever the quantity they divide by is
nonzero (the latency, respectively the throughput); a measurement whose three
fields are supplied directly is not constrained. -/
theorem c5_littles_law_invariant (n r x : ℚ) :
    (r ≠ 0 →
        (ConcurrencyAndLatency n r).Concurrency
          = (ConcurrencyAndLatency n r).Throughput * (ConcurrencyAndLatency n r).Latency)
      ∧ (x ≠ 0 →
          (ConcurrencyAndThroughput n x).Concurrency
            = (ConcurrencyAndThroughput n x).Throughput
                * (ConcurrencyAndThroughput n x).Latency)
      ∧ (ThroughputAndLatency x r).Concurrency
        = (ThroughputAndLatency x r).Throughput * (ThroughputAndLatency x r).Latency := by
  refine ⟨fun hr => ?_, fun hx => ?_, rfl⟩
  · show n = n / r * r
    exact (div_mul_cancel₀ n hr).symm
  · show n = x * (n / x)
    rw [mul_comm, div_mul_cancel₀ n hx]

/-- Witness for C5 (amended) at N = 2, R = 1, X = 3. -/
theorem c5_littles_law_invariant_witness :
    ((1 : ℚ) ≠ 0 ∧ (3 : ℚ) ≠ 0)
      ∧ ((ConcurrencyAndLatency 2 1).Concurrency
            = (ConcurrencyAndLatency 2 1).Throughput * (ConcurrencyAndLatency 2 1).Latency
          ∧ (ConcurrencyAndThroughput 2 3).Concurrency
            = (ConcurrencyAndThroughput 2 3).Throughput
                * (ConcurrencyAndThroughput 2 3).Latency
          ∧ (ThroughputAndLatency 3 1).Concurrency
            = (ThroughputAndLatency 3 1).Throughput * (ThroughputAndLatency 3 1).Latency) :=
  ⟨⟨by norm_num, by norm_num⟩,
    ⟨(c5_littles_law_invariant 2 1 3).1 (by norm_num),
      (c5_littles_law_invariant 2 1 3).2.1 (by norm_num),
      (c5_littles_law_invariant 2 1 3).2.2⟩⟩

/-- C10: the Little's-Law constructors signal no error on a zero divisor; the
unguarded division produces a non-finite derived field: +Inf for positive
dividend, −Inf for negative dividend, NaN when the dividend is zero too. -/
theorem c10_unguarded_division (n : ℚ) :
    (ConcurrencyAndLatencyF n 0).Throughput
        = (if 0 < n then FV.inf else if n < 0 then FV.ninf else FV.nan)
      ∧ (ConcurrencyAndThroughputF n 0).Latency
        = (if 0 < n then FV.inf else if n < 0 then FV.ninf else FV.nan)
      ∧ ((ConcurrencyAndLatencyF n 0).Throughput).isFinite = false
      ∧ ((ConcurrencyAndThroughputF n 0).Latency).isFinite = false := by
  have h : fdiv n 0 = (if 0 < n then FV.inf else if n < 0 then FV.ninf else FV.nan) := by
    simp [fdiv]
  have hf : (fdiv n 0).isFinite = false := by
    rw [h]; split_ifs <;> rfl
  exact ⟨h, h, hf, hf⟩

/-- C7: for every collection accepted by `Build` (at least 6 measurements,
understood over the spec's data-model domain of positive concurrency and
non-negative throughput), the problem handed to the solver carries the
initial guess σ = 0.1, κ = 0.01, and λ = the maximum of
Throughput/Concurrency over the measurements. -/
theorem c7_initial_guess (measurements : List Measurement)
    (hlen : 6 ≤ measurements.length)
    (hok : ∀ mt ∈ measurements, 0 < mt.Concurrency ∧ 0 ≤ mt.Throughput) :
    (buildProblem measurements (initLambda measurements 0)).InitParams
        = [1/10, 1/100, initLambda measurements 0]
      ∧ (∀ mt ∈ measurements,
          mt.Throughput / mt.Concurrency ≤ initLambda measurements 0)
      ∧ (∃ mt ∈ measurements,
          initLambda measurements 0 = mt.Throughput / mt.Concurrency) := by
  refine ⟨rfl, fun mt h => initLambda_ge measurements 0 mt h, ?_⟩
  rcases initLambda_cases measurements 0 with h | h
  · obtain ⟨m0, rest, rfl⟩ : ∃ m0 rest, measurements = m0 :: rest := by
      cases measurements with
      | nil => simp at hlen
      | cons a b => exact ⟨a, b, rfl⟩
    refine ⟨m0, List.mem_cons_self m0 rest, ?_⟩
    have h1 : m0.Throughput / m0.Concurrency ≤ 0 :=
      h ▸ initLambda_ge _ 0 m0 (List.mem_cons_self m0 rest)
    have h2 : 0 ≤ m0.Throughput / m0.Concurrency :=
      div_nonneg (hok m0 (List.mem_cons_self m0 rest)).2
        (hok m0 (List.mem_cons_self m0 rest)).1.le
    rw [h]
    exact (le_antisymm h1 h2).symm
  · exact h

/-- Witness for C7 at six identical measurements with N = 1, X = 2. -/
theorem c7_initial_guess_witness :
    (6 ≤ (List.replicate 6 (Measurement.mk 1 2 1)).length
        ∧ ∀ mt ∈ List.replicate 6 (Measurement.mk 1 2 1),
            0 < mt.Concurrency ∧ 0 ≤ mt.Throughput)
      ∧ ((buildProblem (List.replicate 6 (Measurement.mk 1 2 1))
              (initLambda (List.replicate 6 (Measurement.mk 1 2 1)) 0)).InitParams
            = [1/10, 1/100, initLambda (List.replicate 6 (Measurement.mk 1 2 1)) 0]
          ∧ (∀ mt ∈ List.replicate 6 (Measurement.mk 1 2 1),
              mt.Throughput / mt.Concurrency
                ≤ initLambda (List.replicate 6 (Measurement.mk 1 2 1)) 0)
          ∧ (∃ mt ∈ List.replicate 6 (Measurement.mk 1 2 1),
              initLambda (List.replicate 6 (Measurement.mk 1 2 1)) 0
                = mt.Throughput / mt.Concurrency)) :=
  ⟨⟨by simp, by
      intro mt hm
      rw [List.eq_of_mem_replicate hm]
      exact ⟨by norm_num, by norm_num⟩⟩,
    c7_initial_guess _ (by simp) (by
      intro mt hm
      rw [List.eq_of_mem_replicate hm]
      exact ⟨by norm_num, by norm_num⟩)⟩

/-- C8: for every input collection and every solver behavior, `Build` returns
either a model built from the solver's converged parameter vector, or exactly
one of two errors: `insufficientMeasurements` when fewer than 6 measurements
were given, or `fitDidNotConverge` wrapping the solver's own error when the
solver fails; nothing else is exposed. -/
theorem c8_failure_surface (solve : LMProblem → Except SolverError LMResults)
    (measurements : List Measurement) :
    (measurements.length < 6
        ∧ Build solve measurements = .error .insufficientMeasurements)
      ∨ (6 ≤ measurements.length
          ∧ ∃ e, solve (buildProblem measurements (initLambda measurements 0)) = .error e
              ∧ Build solve measurements = .error (.fitDidNotConverge e))
      ∨ (6 ≤ measurements.length
          ∧ ∃ results,
              solve (buildProblem measurements (initLambda measurements 0)) = .ok results
                ∧ Build solve measurements
                    = .ok ⟨results.X.getD 0 0, results.X.getD 1 0, results.X.getD 2 0⟩) := by
  by_cases h : measurements.length < minMeasurements
  · refine Or.inl ⟨h, ?_⟩
    unfold Build
    rw [if_pos h]
  · have h6 : 6 ≤ measurements.length := le_of_not_lt h
    cases hs : solve (buildProblem measurements (initLambda measurements 0)) with
    | error e =>
      refine Or.inr (Or.inl ⟨h6, e, rfl, ?_⟩)
      unfold Build
      rw [if_neg h]
      simp only [hs]
    | ok results =>
      refine Or.inr (Or.inr ⟨h6, results, rfl, ?_⟩)
      unfold Build
      rw [if_neg h]
      simp only [hs]

/-- C9: `Build` never mutates the caller-supplied measurements: the
state-passing embedding `BuildH` returns, alongside the very result of
`Build`, the measurement array unchanged — whether the call produced a model
or an error. -/
theorem c9_no_mutation (solve : LMProblem → Except SolverError LMResults)
    (measurements : List Measurement) :
    BuildH solve measurements = (Build solve measurements, measurements) := by
  by_cases h : measurements.length < minMeasurements
  · unfold BuildH Build
    rw [if_pos h, if_pos h]
  · unfold BuildH Build
    rw [if_neg h, if_neg h]
    simp only [initLoop_fst, initLoop_snd]
    cases solve (buildProblem measurements (initLambda measurements 0)) <;> rfl

/-- C3 counterexample: on the limitless model (σ, κ, λ) = (0, 0, 1) the call
`MaxConcurrency()` does not fail with any error — the function has no error
result at all — it returns the value +Inf produced by the unguarded division
by κ = 0. -/
theorem c3_limitless_counterexample :
    Model.MaxConcurrency ⟨0, 0, 1⟩ = FV.inf := by
  unfold Model.MaxConcurrency
  have hd : fdiv (1 - (Model.mk 0 0 1).Sigma) (Model.mk 0 0 1).Kappa = FV.inf := by
    rw [fdiv, if_pos (show (Model.mk 0 0 1).Kappa = 0 from rfl),
      if_pos (show (0:ℚ) < 1 - (Model.mk 0 0 1).Sigma by norm_num)]
  rw [hd]
  rfl

/-- C3 (amended): `MaxConcurrency()` returns floor(sqrt((1−σ)/κ)) computed
under IEEE float semantics and never fails: when κ ≠ 0 and (1−σ)/κ ≥ 0 the
result is the finite value floor(sqrt((1−σ)/κ)); when κ = 0 (`Limitless()`
true) the division by zero propagates and the call returns the non-finite
value +Inf if σ < 1 and NaN otherwise, rather than a DivisionByZero error. -/
theorem c3_max_concurrency (m : Model) :
    (m.Kappa ≠ 0 → 0 ≤ (1 - m.Sigma) / m.Kappa →
        m.MaxConcurrency
          = FV.finite ((⌊Real.sqrt (((1 - m.Sigma) / m.Kappa : ℚ) : ℝ)⌋ : ℤ) : ℝ))
      ∧ (m.Limitless = true →
          m.MaxConcurrency = if m.Sigma < 1 then FV.inf else FV.nan) := by
  constructor
  · intro hk hnn
    have hd : fdiv (1 - m.Sigma) m.Kappa
        = FV.finite (((1 - m.Sigma) / m.Kappa : ℚ) : ℝ) := by
      rw [fdiv, if_neg hk]
    unfold Model.MaxConcurrency
    rw [hd]
    have hnn' : ¬((((1 - m.Sigma) / m.Kappa : ℚ) : ℝ) < 0) :=
      not_lt.mpr (by exact_mod_cast hnn)
    simp only [fsqrt, if_neg hnn', ffloor]
  · intro hl
    have hk : m.Kappa = 0 := by
      simpa [Model.Limitless] using hl
    unfold Model.MaxConcurrency
    rcases lt_trichotomy m.Sigma 1 with hs | hs | hs
    · have hd : fdiv (1 - m.Sigma) m.Kappa = FV.inf := by
        rw [fdiv, if_pos hk, if_pos (by linarith)]
      rw [hd, if_pos hs]
      rfl
    · have hd : fdiv (1 - m.Sigma) m.Kappa = FV.nan := by
        rw [fdiv, if_pos hk, if_neg (by rw [hs]; norm_num),
          if_neg (by rw [hs]; norm_num)]
      rw [hd, if_neg (by rw [hs]; exact lt_irrefl 1)]
      rfl
    · have hd : fdiv (1 - m.Sigma) m.Kappa = FV.ninf := by
        rw [fdiv, if_pos hk, if_neg (by linarith), if_pos (by linarith)]
      rw [hd, if_neg (not_lt.mpr hs.le)]
      rfl

/-- Witness for C3 (amended) at the model (σ, κ, λ) = (3/4, 1/16, 1), where
(1−σ)/κ = 4 and the result is floor(sqrt 4) = 2. -/
theorem c3_max_concurrency_witness :
    ((Model.mk (3/4) (1/16) 1).Kappa ≠ 0
        ∧ 0 ≤ (1 - (Model.mk (3/4) (1/16) 1).Sigma) / (Model.mk (3/4) (1/16) 1).Kappa)
      ∧ Model.MaxConcurrency ⟨3/4, 1/16, 1⟩ = FV.finite 2 := by
  have hk : (Model.mk (3/4) (1/16) 1).Kappa ≠ 0 := by
    show (1/16 : ℚ) ≠ 0
    norm_num
  have hnn : 0 ≤ (1 - (Model.mk (3/4) (1/16) 1).Sigma) / (Model.mk (3/4) (1/16) 1).Kappa := by
    show (0:ℚ) ≤ (1 - 3/4) / (1/16)
    norm_num
  refine ⟨⟨hk, hnn⟩, ?_⟩
  have h := (c3_max_concurrency ⟨3/4, 1/16, 1⟩).1 hk hnn
  rw [h]
  have h4 : (((1 - (Model.mk (3/4) (1/16) 1).Sigma) / (Model.mk (3/4) (1/16) 1).Kappa : ℚ) : ℝ)
      = 4 := by
    norm_num
  rw [h4]
  have hs : Real.sqrt 4 = 2 := by
    rw [show (4:ℝ) = 2 ^ 2 by norm_num]
    exact Real.sqrt_sq (by norm_num)
  rw [hs]
  norm_num

end USL
